import Mathlib

/-!
Verification of the Merlin sound-id dashboard decision core and the
UI spectrogram stream manager.

Shallow embedding of the TypeScript decision engine (the
ClassificationResultsProcessorImpl block of MerlinPage.svelte) and of the
Go UiSpectrogramManager lifecycle. Confidences are embedded as rationals,
the JS Set of unlocked species as a Finset of strings, the Map of history
counts as a total function with default 0, and the stable JS Array sort as
the standard-library stable merge sort.
-/

/-- Common-name sentinel used by the classifier to signal bird-like sound. -/
def SINGING_BIRD_NAME : String := "bird sp."

/-- One per-species recognition inside a prediction batch. -/
structure SoundRecognition where
  commonName : String
  scientificName : String
  confidence : ℚ
  inLifeList : Bool
deriving DecidableEq, Repr

/-- Threshold preferences fetched once per session. -/
structure SoundIdConfig where
  birdsingingthreshold : ℚ
  initialthreshold : ℚ
  unlockedthreshold : ℚ
  mindetectionstounlock : ℕ
deriving DecidableEq, Repr

/-- Mutable engine state: the unlocked-species set and the stored
previous filtered batch. -/
structure EngineState where
  unlockedSpecies : Finset String
  previousDetections : List SoundRecognition
deriving DecidableEq

/-- Initial engine state: the code initialises the unlocked set seeded with
the sentinel name and an empty previous-detections array. -/
def initEngineState : EngineState :=
  { unlockedSpecies := {SINGING_BIRD_NAME}, previousDetections := [] }

/-- Membership test of a recognition in the unlocked set. -/
def isUnlocked (unlocked : Finset String) (rec : SoundRecognition) : Bool :=
  decide (rec.commonName ∈ unlocked)

/-- Effective minimum confidence for one recognition: sentinel first, then
unlocked, then initial. -/
def getMinConfidence (cfg : SoundIdConfig) (unlocked : Finset String)
    (rec : SoundRecognition) : ℚ :=
  if rec.commonName = SINGING_BIRD_NAME then cfg.birdsingingthreshold
  else if isUnlocked unlocked rec then cfg.unlockedthreshold
  else cfg.initialthreshold

/-- Keep the recognitions whose confidence reaches their effective minimum. -/
def filterByThreshold (cfg : SoundIdConfig) (unlocked : Finset String)
    (recs : List SoundRecognition) : List SoundRecognition :=
  recs.filter (fun rec => decide (getMinConfidence cfg unlocked rec ≤ rec.confidence))

/-- Whether some recognition in the list carries the sentinel name. -/
def containsBirdSinging (recs : List SoundRecognition) : Bool :=
  recs.any (fun rec => rec.commonName == SINGING_BIRD_NAME)

/-- Increment the stored count of one name in a count map. -/
def bumpCount (m : String → ℕ) (name : String) : String → ℕ :=
  fun k => if k = name then m name + 1 else m k

/-- Add the occurrences of a list of recognitions into a count map. -/
def addCounts (m : String → ℕ) (recs : List SoundRecognition) : String → ℕ :=
  recs.foldl (fun acc rec => bumpCount acc rec.commonName) m

/-- Fresh two-frame history map: counts seeded from the previous filtered
batch, then the current one. -/
def updateHistory (previousDetections recs : List SoundRecognition) : String → ℕ :=
  addCounts (addCounts (fun _ => 0) previousDetections) recs

/-- Add one species to the unlocked set when its history count reaches the
configured minimum. -/
def unlock (cfg : SoundIdConfig) (history : String → ℕ)
    (unlocked : Finset String) (commonName : String) : Finset String :=
  if cfg.mindetectionstounlock ≤ history commonName then
    insert commonName unlocked
  else unlocked

/-- One iteration of the unlock loop: skip a recognition that is already
unlocked, otherwise attempt to unlock it. -/
def unlockStep (cfg : SoundIdConfig) (history : String → ℕ)
    (u : Finset String) (rec : SoundRecognition) : Finset String :=
  if isUnlocked u rec then u else unlock cfg history u rec.commonName

/-- Walk the filtered batch and attempt to unlock every not-yet-unlocked
species. -/
def updateUnlockedSpecies (cfg : SoundIdConfig) (recs : List SoundRecognition)
    (history : String → ℕ) (unlocked : Finset String) : Finset String :=
  recs.foldl (unlockStep cfg history) unlocked

/-- Boolean comparison used by the ascending stable sort on confidence. -/
def confLE (a b : SoundRecognition) : Bool :=
  decide (a.confidence ≤ b.confidence)

/-- Stable ascending sort by confidence, embedding the JS stable Array sort
with comparator a.confidence - b.confidence. -/
def sortByConfidence (recs : List SoundRecognition) : List SoundRecognition :=
  recs.mergeSort confLE

/-- Decision core. Filter the batch by thresholds, gate on the sentinel,
rebuild the two-frame history, try to unlock species, keep the unlocked
recognitions and sort them ascending by confidence. Returns the emitted
sequence together with the new engine state. -/
def filterAndSortResults (cfg : SoundIdConfig) (st : EngineState)
    (recs : List SoundRecognition) : List SoundRecognition × EngineState :=
  let filteredResults := filterByThreshold cfg st.unlockedSpecies recs
  if containsBirdSinging filteredResults then
    let history := updateHistory st.previousDetections filteredResults
    let unlocked := updateUnlockedSpecies cfg filteredResults history st.unlockedSpecies
    let results := filteredResults.filter (fun rec => isUnlocked unlocked rec)
    (sortByConfidence results,
     { unlockedSpecies := unlocked, previousDetections := filteredResults })
  else
    ([], st)

/-- Unsorted selection produced by the decision core on a batch that passes
the activity gate: the filtered recognitions that are unlocked after the
unlock pass, in input order. -/
def selectedResults (cfg : SoundIdConfig) (st : EngineState)
    (recs : List SoundRecognition) : List SoundRecognition :=
  let filteredResults := filterByThreshold cfg st.unlockedSpecies recs
  let history := updateHistory st.previousDetections filteredResults
  let unlocked := updateUnlockedSpecies cfg filteredResults history st.unlockedSpecies
  filteredResults.filter (fun rec => isUnlocked unlocked rec)

/-- Run the decision core over a sequence of batches, threading state. -/
def runBatches (cfg : SoundIdConfig) (st : EngineState)
    (batches : List (List SoundRecognition)) : EngineState :=
  batches.foldl (fun s b => (filterAndSortResults cfg s b).2) st

/-- Effective minimum confidence as the specification words it: resolved by
priority, sentinel first, then membership in the unlocked set, then the
initial threshold. Stated separately from the code-derived definition so the
threshold-resolution claim is a genuine comparison. -/
def specEffectiveMinConfidence (cfg : SoundIdConfig) (unlocked : Finset String)
    (rec : SoundRecognition) : ℚ :=
  if rec.commonName = SINGING_BIRD_NAME then cfg.birdsingingthreshold
  else if rec.commonName ∈ unlocked then cfg.unlockedthreshold
  else cfg.initialthreshold

/-- Aggregated per-species summary entry owned by the UI layer. -/
structure MerlinSpeciesSummary where
  common_name : String
  scientific_name : String
  inLifeList : Bool
  confidence : ℚ
  maxConfidence : ℚ
  count : ℕ
deriving DecidableEq, Repr

/-- Bird-singing indicator counters of the UI layer. -/
structure BirdSinging where
  indicatorCount : ℕ
  hearingCount : ℕ
deriving DecidableEq, Repr

/-- Incremental update of the species summary for one emitted detection:
bump the existing entry found by common name, or prepend a new entry. -/
def handleNewDetection (speciesSummary : List MerlinSpeciesSummary)
    (detection : SoundRecognition) : List MerlinSpeciesSummary :=
  match speciesSummary.findIdx? (fun s => s.common_name == detection.commonName) with
  | some existingIndex =>
    match speciesSummary[existingIndex]? with
    | some existing =>
      speciesSummary.set existingIndex
        { existing with
          count := existing.count + 1
          maxConfidence := max existing.maxConfidence detection.confidence
          confidence := detection.confidence }
    | none => speciesSummary
  | none =>
    { common_name := detection.commonName
      scientific_name := detection.scientificName
      inLifeList := detection.inLifeList
      confidence := detection.confidence
      maxConfidence := detection.confidence
      count := 1 } :: speciesSummary

/-- UI-layer state threaded through one prediction event. -/
structure UIState where
  speciesSummary : List MerlinSpeciesSummary
  birdSinging : BirdSinging
  engine : EngineState

/-- One iteration of the loop in handleNewPrediction over the emitted
recognitions: the sentinel only updates the bird-singing counters, every
other recognition goes to handleNewDetection. The parameter n is the length
of the emitted sequence. -/
def predictionStep (n : ℕ) (acc : List MerlinSpeciesSummary × BirdSinging)
    (rec : SoundRecognition) : List MerlinSpeciesSummary × BirdSinging :=
  if rec.commonName = SINGING_BIRD_NAME then
    (acc.1,
     { indicatorCount := acc.2.indicatorCount + 1
       hearingCount := if n = 1 then acc.2.hearingCount + 1 else 0 })
  else
    (handleNewDetection acc.1 rec, acc.2)

/-- Summary-layer consumer of one prediction batch: run the decision core,
reset the indicator on an empty result, then walk the emitted recognitions. -/
def handleNewPrediction (cfg : SoundIdConfig) (ui : UIState)
    (predictions : List SoundRecognition) : UIState :=
  let out := filterAndSortResults cfg ui.engine predictions
  let recs := out.1
  let bird0 : BirdSinging :=
    if recs.length = 0 then { indicatorCount := 0, hearingCount := 0 }
    else ui.birdSinging
  let acc := recs.foldl (predictionStep recs.length) (ui.speciesSummary, bird0)
  { speciesSummary := acc.1, birdSinging := acc.2, engine := out.2 }

/-- Outcome of one call to Stop on the spectrogram manager. -/
inductive StopOutcome where
  | notRunning
  | clean
  | timedOut
deriving DecidableEq, Repr

/-- State of the Go UiSpectrogramManager relevant to lifecycle claims: the
running flag and whether a done channel is allocated. -/
structure UiSpectrogramManager where
  isRunning : Bool
  hasDoneChan : Bool
deriving DecidableEq, Repr

/-- Freshly constructed manager. -/
def newUiSpectrogramManager : UiSpectrogramManager :=
  { isRunning := false, hasDoneChan := false }

/-- Start: no-op when already running, otherwise allocate a done channel,
launch the workers and mark running. -/
def managerStart (m : UiSpectrogramManager) : UiSpectrogramManager :=
  if m.isRunning then m else { isRunning := true, hasDoneChan := true }

/-- Stop, embedding the Go select between the worker wait-group finishing
and the 30-second timer. The boolean says whether the workers exit within
the timeout; in both arms of the select control continues, marks the
manager stopped and clears the done channel, so the embedding is total: a
worker that never exits yields the timedOut outcome instead of blocking. -/
def managerStop (m : UiSpectrogramManager) (workerExitsWithinTimeout : Bool) :
    UiSpectrogramManager × StopOutcome :=
  if m.isRunning then
    ({ isRunning := false, hasDoneChan := false },
     if workerExitsWithinTimeout then StopOutcome.clean else StopOutcome.timedOut)
  else
    (m, StopOutcome.notRunning)

/-- IsRunning query: reads the running flag. -/
def managerIsRunning (m : UiSpectrogramManager) : Bool :=
  m.isRunning

-- Concrete data for witnesses and counterexamples.

/-- Sample configuration requiring two detections to unlock. -/
def cfgA : SoundIdConfig :=
  { birdsingingthreshold := mkRat 1 2, initialthreshold := mkRat 7 10,
    unlockedthreshold := mkRat 3 10, mindetectionstounlock := 2 }

/-- Sample configuration requiring a single detection to unlock. -/
def cfgB : SoundIdConfig :=
  { birdsingingthreshold := mkRat 1 2, initialthreshold := mkRat 7 10,
    unlockedthreshold := mkRat 3 10, mindetectionstounlock := 1 }

/-- Sentinel recognition at confidence 9/10. -/
def sentinelRec : SoundRecognition :=
  { commonName := SINGING_BIRD_NAME, scientificName := "Aves sp.",
    confidence := mkRat 9 10, inLifeList := false }

/-- Robin recognition at confidence 4/5. -/
def robinRec : SoundRecognition :=
  { commonName := "Robin", scientificName := "Turdus migratorius",
    confidence := mkRat 4 5, inLifeList := false }

/-- Sparrow recognition at confidence 4/5, equal to the robin confidence. -/
def sparrowRec : SoundRecognition :=
  { commonName := "Sparrow", scientificName := "Passer domesticus",
    confidence := mkRat 4 5, inLifeList := false }

/-- Engine state after one batch already contained the robin. -/
def stPrevRobin : EngineState :=
  { unlockedSpecies := {SINGING_BIRD_NAME}, previousDetections := [robinRec] }

/-- UI state at session start. -/
def uiInit : UIState :=
  { speciesSummary := []
    birdSinging := { indicatorCount := 0, hearingCount := 0 }
    engine := initEngineState }

-- Sanity checks on concrete data.

example : containsBirdSinging [] = false := rfl

example :
    filterByThreshold
      { birdsingingthreshold := mkRat 1 2, initialthreshold := mkRat 7 10,
        unlockedthreshold := mkRat 3 10, mindetectionstounlock := 2 }
      {SINGING_BIRD_NAME}
      [{ commonName := SINGING_BIRD_NAME, scientificName := "Aves sp.",
         confidence := mkRat 4 5, inLifeList := false }] =
      [{ commonName := SINGING_BIRD_NAME, scientificName := "Aves sp.",
         confidence := mkRat 4 5, inLifeList := false }] := by decide

example :
    updateHistory []
      [{ commonName := "Robin", scientificName := "T. migratorius",
         confidence := mkRat 4 5, inLifeList := false }] "Robin" = 1 := by decide

-- Helper lemmas about the unlock loop.

lemma mem_unlockStep (cfg : SoundIdConfig) (history : String → ℕ)
    (u : Finset String) (rec : SoundRecognition) (s : String) :
    s ∈ unlockStep cfg history u rec ↔
      s ∈ u ∨ (s = rec.commonName ∧ cfg.mindetectionstounlock ≤ history rec.commonName) := by
  unfold unlockStep unlock isUnlocked
  simp only [decide_eq_true_eq]
  by_cases h : rec.commonName ∈ u
  · simp only [if_pos h]
    constructor
    · exact Or.inl
    · rintro (hs | ⟨rfl, -⟩)
      · exact hs
      · exact h
  · simp only [if_neg h]
    by_cases hc : cfg.mindetectionstounlock ≤ history rec.commonName
    · simp only [if_pos hc, Finset.mem_insert]
      constructor
      · rintro (rfl | hs)
        · exact Or.inr ⟨rfl, hc⟩
        · exact Or.inl hs
      · rintro (hs | ⟨rfl, -⟩)
        · exact Or.inr hs
        · exact Or.inl rfl
    · simp only [if_neg hc]
      constructor
      · exact Or.inl
      · rintro (hs | ⟨rfl, hcc⟩)
        · exact hs
        · exact absurd hcc hc

lemma subset_unlockStep (cfg : SoundIdConfig) (history : String → ℕ)
    (u : Finset String) (rec : SoundRecognition) :
    u ⊆ unlockStep cfg history u rec := by
  intro s hs
  exact (mem_unlockStep cfg history u rec s).mpr (Or.inl hs)

lemma mem_updateUnlockedSpecies (cfg : SoundIdConfig) (history : String → ℕ) :
    ∀ (recs : List SoundRecognition) (u : Finset String) (s : String),
      s ∈ updateUnlockedSpecies cfg recs history u ↔
        s ∈ u ∨ ∃ r ∈ recs,
          s = r.commonName ∧ cfg.mindetectionstounlock ≤ history r.commonName := by
  intro recs
  induction recs with
  | nil => simp [updateUnlockedSpecies]
  | cons r rs ih =>
    intro u s
    have hstep : updateUnlockedSpecies cfg (r :: rs) history u =
        updateUnlockedSpecies cfg rs history (unlockStep cfg history u r) := rfl
    rw [hstep, ih, mem_unlockStep]
    simp only [List.mem_cons]
    constructor
    · rintro ((hs | ⟨rfl, hc⟩) | ⟨r', hr', hs, hc⟩)
      · exact Or.inl hs
      · exact Or.inr ⟨r, Or.inl rfl, rfl, hc⟩
      · exact Or.inr ⟨r', Or.inr hr', hs, hc⟩
    · rintro (hs | ⟨r', hmem | hmem, hs, hc⟩)
      · exact Or.inl (Or.inl hs)
      · subst hmem; exact Or.inl (Or.inr ⟨hs, hc⟩)
      · exact Or.inr ⟨r', hmem, hs, hc⟩

lemma subset_updateUnlockedSpecies (cfg : SoundIdConfig) (history : String → ℕ) :
    ∀ (recs : List SoundRecognition) (u : Finset String),
      u ⊆ updateUnlockedSpecies cfg recs history u := by
  intro recs
  induction recs with
  | nil => intro u; exact fun s hs => hs
  | cons r rs ih =>
    intro u
    have hstep : updateUnlockedSpecies cfg (r :: rs) history u =
        updateUnlockedSpecies cfg rs history (unlockStep cfg history u r) := rfl
    rw [hstep]
    exact (subset_unlockStep cfg history u r).trans (ih _)

-- Helper lemmas about the decision core.

lemma containsBirdSinging_iff (recs : List SoundRecognition) :
    containsBirdSinging recs = true ↔
      ∃ r ∈ recs, r.commonName = SINGING_BIRD_NAME := by
  simp [containsBirdSinging, List.any_eq_true]

lemma filterAndSortResults_pos (cfg : SoundIdConfig) (st : EngineState)
    (recs : List SoundRecognition)
    (h : containsBirdSinging (filterByThreshold cfg st.unlockedSpecies recs) = true) :
    filterAndSortResults cfg st recs =
      (sortByConfidence (selectedResults cfg st recs),
       { unlockedSpecies :=
           updateUnlockedSpecies cfg (filterByThreshold cfg st.unlockedSpecies recs)
             (updateHistory st.previousDetections
               (filterByThreshold cfg st.unlockedSpecies recs))
             st.unlockedSpecies
         previousDetections := filterByThreshold cfg st.unlockedSpecies recs }) := by
  simp [filterAndSortResults, selectedResults, h]

lemma filterAndSortResults_neg (cfg : SoundIdConfig) (st : EngineState)
    (recs : List SoundRecognition)
    (h : containsBirdSinging (filterByThreshold cfg st.unlockedSpecies recs) = false) :
    filterAndSortResults cfg st recs = ([], st) := by
  simp [filterAndSortResults, h]

lemma confLE_trans : ∀ a b c : SoundRecognition,
    confLE a b → confLE b c → confLE a c := by
  intro a b c hab hbc
  simp only [confLE, decide_eq_true_eq] at *
  exact le_trans hab hbc

lemma confLE_total : ∀ a b : SoundRecognition, confLE a b || confLE b a := by
  intro a b
  simp only [confLE, Bool.or_eq_true, decide_eq_true_eq]
  exact le_total _ _

lemma mem_selectedResults (cfg : SoundIdConfig) (st : EngineState)
    (recs : List SoundRecognition) (r : SoundRecognition) :
    r ∈ selectedResults cfg st recs ↔
      r ∈ filterByThreshold cfg st.unlockedSpecies recs ∧
      r.commonName ∈
        updateUnlockedSpecies cfg (filterByThreshold cfg st.unlockedSpecies recs)
          (updateHistory st.previousDetections
            (filterByThreshold cfg st.unlockedSpecies recs))
          st.unlockedSpecies := by
  simp [selectedResults, List.mem_filter, isUnlocked]

lemma unlockedSpecies_subset_result (cfg : SoundIdConfig) (st : EngineState)
    (recs : List SoundRecognition) :
    st.unlockedSpecies ⊆ (filterAndSortResults cfg st recs).2.unlockedSpecies := by
  cases h : containsBirdSinging (filterByThreshold cfg st.unlockedSpecies recs) with
  | false =>
    rw [filterAndSortResults_neg cfg st recs h]
  | true =>
    rw [filterAndSortResults_pos cfg st recs h]
    exact subset_updateUnlockedSpecies cfg _ _ _

lemma pairwise_sortByConfidence (l : List SoundRecognition) :
    (sortByConfidence l).Pairwise (fun a b => a.confidence ≤ b.confidence) := by
  have h := @List.sorted_mergeSort SoundRecognition confLE confLE_trans confLE_total l
  exact h.imp (fun hab => by simpa [confLE] using hab)

-- Helper lemmas about the summary layer.

lemma foldl_predictionStep_fst (n : ℕ) :
    ∀ (recs : List SoundRecognition) (summary : List MerlinSpeciesSummary)
      (bird : BirdSinging),
      (recs.foldl (predictionStep n) (summary, bird)).1 =
        (recs.filter (fun r => !(r.commonName == SINGING_BIRD_NAME))).foldl
          handleNewDetection summary := by
  intro recs
  induction recs with
  | nil => intro summary bird; rfl
  | cons r rs ih =>
    intro summary bird
    by_cases h : r.commonName = SINGING_BIRD_NAME
    · have hstep : predictionStep n (summary, bird) r =
          (summary,
           { indicatorCount := bird.indicatorCount + 1
             hearingCount := if n = 1 then bird.hearingCount + 1 else 0 }) := by
        simp [predictionStep, h]
      have hfilter : (r :: rs).filter (fun r => !(r.commonName == SINGING_BIRD_NAME)) =
          rs.filter (fun r => !(r.commonName == SINGING_BIRD_NAME)) := by
        simp [List.filter_cons, h]
      rw [List.foldl_cons, hstep, hfilter, ih]
    · have hstep : predictionStep n (summary, bird) r =
          (handleNewDetection summary r, bird) := by
        simp [predictionStep, h]
      have hfilter : (r :: rs).filter (fun r => !(r.commonName == SINGING_BIRD_NAME)) =
          r :: rs.filter (fun r => !(r.commonName == SINGING_BIRD_NAME)) := by
        simp [List.filter_cons, h]
      rw [List.foldl_cons, hstep, hfilter, List.foldl_cons, ih]

lemma handleNewDetection_preserves_absence (summary : List MerlinSpeciesSummary)
    (d : SoundRecognition) (name : String) (hd : d.commonName ≠ name)
    (h : ∀ s ∈ summary, s.common_name ≠ name) :
    ∀ s ∈ handleNewDetection summary d, s.common_name ≠ name := by
  intro s hs
  unfold handleNewDetection at hs
  cases hidx : summary.findIdx? (fun s => s.common_name == d.commonName) with
  | none =>
    simp only [hidx] at hs
    rcases List.mem_cons.mp hs with rfl | hmem
    · exact hd
    · exact h s hmem
  | some i =>
    simp only [hidx] at hs
    cases hget : summary[i]? with
    | none =>
      simp only [hget] at hs
      exact h s hs
    | some existing =>
      simp only [hget] at hs
      rcases List.mem_or_eq_of_mem_set hs with hmem | rfl
      · exact h s hmem
      · exact h existing (List.getElem?_mem hget)

lemma foldl_handleNewDetection_preserves_absence (name : String) :
    ∀ (recs : List SoundRecognition) (summary : List MerlinSpeciesSummary),
      (∀ r ∈ recs, r.commonName ≠ name) →
      (∀ s ∈ summary, s.common_name ≠ name) →
      ∀ s ∈ recs.foldl handleNewDetection summary, s.common_name ≠ name := by
  intro recs
  induction recs with
  | nil => intro summary _ h; exact h
  | cons r rs ih =>
    intro summary hr h
    rw [List.foldl_cons]
    exact ih _ (fun r' hr' => hr r' (List.mem_cons_of_mem r hr'))
      (handleNewDetection_preserves_absence summary r name
        (hr r (List.mem_cons_self r rs)) h)

-- Claim theorems.

/-- C1 counterexample: with the sample configuration, the initial engine
state and a batch holding only the sentinel at confidence 9/10, the
sentinel name does appear in the sequence returned by
filterAndSortResults, so the claim as stated is false. -/
theorem sentinel_appears_in_output_cex :
    ∃ r ∈ (filterAndSortResults cfgA initEngineState [sentinelRec]).1,
      r.commonName = SINGING_BIRD_NAME := by
  have hgate :
      containsBirdSinging
        (filterByThreshold cfgA initEngineState.unlockedSpecies [sentinelRec]) = true := by
    decide
  rw [filterAndSortResults_pos cfgA initEngineState [sentinelRec] hgate]
  refine ⟨sentinelRec, ?_, rfl⟩
  simp only [sortByConfidence, List.mem_mergeSort]
  decide

/-- C1 (amended): the sentinel name appears in the output of
filterAndSortResults whenever the sentinel is in the unlocked set (true
from initialisation onward) and the filtered batch passes the activity
gate; the decision core never excludes it, exclusion happens only in the
downstream consumer handleNewPrediction. -/
theorem sentinel_emitted_when_gate_passes (cfg : SoundIdConfig)
    (st : EngineState) (recs : List SoundRecognition)
    (hunl : SINGING_BIRD_NAME ∈ st.unlockedSpecies)
    (hgate : containsBirdSinging
      (filterByThreshold cfg st.unlockedSpecies recs) = true) :
    ∃ r ∈ (filterAndSortResults cfg st recs).1,
      r.commonName = SINGING_BIRD_NAME := by
  obtain ⟨r, hr, hname⟩ := (containsBirdSinging_iff _).mp hgate
  refine ⟨r, ?_, hname⟩
  rw [filterAndSortResults_pos cfg st recs hgate]
  simp only [sortByConfidence, List.mem_mergeSort, mem_selectedResults]
  refine ⟨hr, ?_⟩
  rw [hname]
  exact subset_updateUnlockedSpecies cfg _ _ _ hunl

/-- C1 witness: the amended theorem applied at the concrete configuration,
the initial state and a sentinel-only batch. -/
theorem sentinel_emitted_when_gate_passes_witness :
    SINGING_BIRD_NAME ∈ initEngineState.unlockedSpecies ∧
    containsBirdSinging
      (filterByThreshold cfgA initEngineState.unlockedSpecies [sentinelRec]) = true ∧
    ∃ r ∈ (filterAndSortResults cfgA initEngineState [sentinelRec]).1,
      r.commonName = SINGING_BIRD_NAME :=
  ⟨by decide, by decide,
   sentinel_emitted_when_gate_passes cfgA initEngineState [sentinelRec]
     (by decide) (by decide)⟩

/-- C2 counterexample: the unlocked-species set is not empty at session
start, so the claim that both session structures start empty is false. -/
theorem initial_state_not_both_empty_cex :
    ¬(initEngineState.unlockedSpecies = ∅ ∧
      initEngineState.previousDetections = []) := by
  decide

/-- C2 (amended): at session start the stored previous-batch reference is
empty while the unlocked set holds exactly the sentinel name. -/
theorem initial_state_characterisation :
    initEngineState.unlockedSpecies = {SINGING_BIRD_NAME} ∧
    initEngineState.previousDetections = [] :=
  ⟨rfl, rfl⟩

/-- C4 (confirmed): when the threshold-filtered batch lacks the sentinel,
the decision core returns the empty sequence and the engine state is
returned unchanged, so neither the unlocked set nor the previous-batch
reference is touched. -/
theorem silent_frame_no_output_no_mutation (cfg : SoundIdConfig)
    (st : EngineState) (recs : List SoundRecognition)
    (h : containsBirdSinging
      (filterByThreshold cfg st.unlockedSpecies recs) = false) :
    filterAndSortResults cfg st recs = ([], st) :=
  filterAndSortResults_neg cfg st recs h

/-- C4 witness: a batch holding only the robin has no sentinel after
filtering, so the core emits nothing and keeps the state. -/
theorem silent_frame_no_output_no_mutation_witness :
    containsBirdSinging
      (filterByThreshold cfgA initEngineState.unlockedSpecies [robinRec]) = false ∧
    filterAndSortResults cfgA initEngineState [robinRec] = ([], initEngineState) :=
  ⟨by decide,
   silent_frame_no_output_no_mutation cfgA initEngineState [robinRec] (by decide)⟩

/-- C5 (confirmed): across any sequence of calls to the decision core the
unlocked set only grows: after processing one more batch it is a superset
of what it was before that call. -/
theorem unlockedSpecies_monotonic (cfg : SoundIdConfig) (st : EngineState)
    (batches : List (List SoundRecognition)) (batch : List SoundRecognition) :
    (runBatches cfg st batches).unlockedSpecies ⊆
      (runBatches cfg st (batches ++ [batch])).unlockedSpecies := by
  have happ : runBatches cfg st (batches ++ [batch]) =
      (filterAndSortResults cfg (runBatches cfg st batches) batch).2 := by
    simp [runBatches, List.foldl_append]
  rw [happ]
  exact unlockedSpecies_subset_result cfg (runBatches cfg st batches) batch

/-- C7 counterexample: on a batch with no recognitions the decision core
leaves the stored previous-batch reference untouched, so the claim that it
is replaced by an empty previous batch is false when the stored reference
was non-empty. -/
theorem empty_batch_keeps_previous_cex :
    (filterAndSortResults cfgA stPrevRobin []).2.previousDetections ≠ [] := by
  decide

/-- C7 (amended): a batch with no recognitions yields an empty result and
no state mutation at all: the activity gate fails before any history
update, so the previous-batch reference keeps its old value instead of
being replaced by an empty one. -/
theorem empty_batch_no_mutation (cfg : SoundIdConfig) (st : EngineState) :
    filterAndSortResults cfg st [] = ([], st) :=
  rfl

/-- C3 (confirmed): on a batch whose filtered set contains the sentinel,
a species of the filtered set that is not yet unlocked is added to the
unlocked set exactly when its count in the freshly built two-frame history
map reaches the configured minimum, and a species unlocked this way
appears in the emitted output of the same batch. -/
theorem unlock_exactly_at_min_count (cfg : SoundIdConfig) (st : EngineState)
    (recs : List SoundRecognition) (s : String)
    (hgate : containsBirdSinging
      (filterByThreshold cfg st.unlockedSpecies recs) = true)
    (hs : s ∈ (filterByThreshold cfg st.unlockedSpecies recs).map
      (fun r => r.commonName))
    (hnot : s ∉ st.unlockedSpecies) :
    (s ∈ (filterAndSortResults cfg st recs).2.unlockedSpecies ↔
      cfg.mindetectionstounlock ≤
        updateHistory st.previousDetections
          (filterByThreshold cfg st.unlockedSpecies recs) s) ∧
    (s ∈ (filterAndSortResults cfg st recs).2.unlockedSpecies →
      ∃ r ∈ (filterAndSortResults cfg st recs).1, r.commonName = s) := by
  obtain ⟨r0, hr0, hr0s⟩ := List.mem_map.mp hs
  rw [filterAndSortResults_pos cfg st recs hgate]
  dsimp only
  constructor
  · rw [mem_updateUnlockedSpecies]
    constructor
    · rintro (hmem | ⟨r, hr, rfl, hc⟩)
      · exact absurd hmem hnot
      · exact hc
    · intro hc
      exact Or.inr ⟨r0, hr0, hr0s.symm, by rwa [hr0s]⟩
  · intro hmem
    refine ⟨r0, ?_, hr0s⟩
    simp only [sortByConfidence, List.mem_mergeSort, mem_selectedResults]
    refine ⟨hr0, ?_⟩
    rw [hr0s]
    exact hmem

/-- C3 witness: with a minimum of two detections, a robin present in the
previous filtered batch and again in the current one is unlocked in this
batch and emitted in its output. -/
theorem unlock_exactly_at_min_count_witness :
    (containsBirdSinging
      (filterByThreshold cfgA stPrevRobin.unlockedSpecies
        [sentinelRec, robinRec]) = true) ∧
    ("Robin" ∈ (filterByThreshold cfgA stPrevRobin.unlockedSpecies
      [sentinelRec, robinRec]).map (fun r => r.commonName)) ∧
    ("Robin" ∉ stPrevRobin.unlockedSpecies) ∧
    (("Robin" ∈
        (filterAndSortResults cfgA stPrevRobin [sentinelRec, robinRec]).2.unlockedSpecies ↔
      cfgA.mindetectionstounlock ≤
        updateHistory stPrevRobin.previousDetections
          (filterByThreshold cfgA stPrevRobin.unlockedSpecies
            [sentinelRec, robinRec]) "Robin") ∧
     ("Robin" ∈
        (filterAndSortResults cfgA stPrevRobin [sentinelRec, robinRec]).2.unlockedSpecies →
      ∃ r ∈ (filterAndSortResults cfgA stPrevRobin [sentinelRec, robinRec]).1,
        r.commonName = "Robin")) :=
  ⟨by decide, by decide, by decide,
   unlock_exactly_at_min_count cfgA stPrevRobin [sentinelRec, robinRec] "Robin"
     (by decide) (by decide) (by decide)⟩

/-- C6 (confirmed): the effective minimum confidence used by the threshold
filter is the priority-resolved one of the specification: sentinel first,
then unlocked membership, then the initial threshold; and membership in
the filtered batch is exactly reaching that minimum. -/
theorem threshold_priority_resolution (cfg : SoundIdConfig)
    (unlocked : Finset String) (recs : List SoundRecognition)
    (r : SoundRecognition) :
    (getMinConfidence cfg unlocked r = specEffectiveMinConfidence cfg unlocked r) ∧
    (r.commonName = SINGING_BIRD_NAME →
      getMinConfidence cfg unlocked r = cfg.birdsingingthreshold) ∧
    (r.commonName ≠ SINGING_BIRD_NAME → r.commonName ∈ unlocked →
      getMinConfidence cfg unlocked r = cfg.unlockedthreshold) ∧
    (r.commonName ≠ SINGING_BIRD_NAME → r.commonName ∉ unlocked →
      getMinConfidence cfg unlocked r = cfg.initialthreshold) ∧
    (r ∈ filterByThreshold cfg unlocked recs ↔
      r ∈ recs ∧ specEffectiveMinConfidence cfg unlocked r ≤ r.confidence) := by
  have he : getMinConfidence cfg unlocked r =
      specEffectiveMinConfidence cfg unlocked r := by
    unfold getMinConfidence specEffectiveMinConfidence isUnlocked
    by_cases h1 : r.commonName = SINGING_BIRD_NAME
    · simp [h1]
    · by_cases h2 : r.commonName ∈ unlocked
      · simp [h1, h2]
      · simp [h1, h2]
  refine ⟨he, ?_, ?_, ?_, ?_⟩
  · intro h1
    simp [getMinConfidence, h1]
  · intro h1 h2
    simp [getMinConfidence, isUnlocked, h1, h2]
  · intro h1 h2
    simp [getMinConfidence, isUnlocked, h1, h2]
  · rw [filterByThreshold, List.mem_filter, he]
    simp only [decide_eq_true_eq]

/-- C6 witness: the priority resolution applied to a robin that is neither
the sentinel nor unlocked yields the initial threshold. -/
theorem threshold_priority_resolution_witness :
    (robinRec.commonName ≠ SINGING_BIRD_NAME) ∧
    (robinRec.commonName ∉ initEngineState.unlockedSpecies) ∧
    getMinConfidence cfgA initEngineState.unlockedSpecies robinRec =
      cfgA.initialthreshold :=
  ⟨by decide, by decide,
   (threshold_priority_resolution cfgA initEngineState.unlockedSpecies
     [robinRec] robinRec).2.2.2.1 (by decide) (by decide)⟩

/-- C8 (confirmed): the emitted sequence is always sorted ascending by
confidence; the unsorted selection is a sublist of the input batch, so its
order is the input order; and any pair of equal-confidence recognitions in
selection order stays in that order in the emitted output. -/
theorem output_sorted_ascending_stable (cfg : SoundIdConfig)
    (st : EngineState) (recs : List SoundRecognition) :
    ((filterAndSortResults cfg st recs).1.Pairwise
      (fun a b => a.confidence ≤ b.confidence)) ∧
    (List.Sublist (selectedResults cfg st recs) recs) ∧
    (containsBirdSinging (filterByThreshold cfg st.unlockedSpecies recs) = true →
      ∀ a b : SoundRecognition, a.confidence = b.confidence →
        List.Sublist [a, b] (selectedResults cfg st recs) →
        List.Sublist [a, b] ((filterAndSortResults cfg st recs).1)) := by
  refine ⟨?_, ?_, ?_⟩
  · cases h : containsBirdSinging (filterByThreshold cfg st.unlockedSpecies recs) with
    | false =>
      rw [filterAndSortResults_neg cfg st recs h]
      exact List.Pairwise.nil
    | true =>
      rw [filterAndSortResults_pos cfg st recs h]
      exact pairwise_sortByConfidence _
  · simp only [selectedResults, filterByThreshold]
    exact (List.filter_sublist _).trans (List.filter_sublist _)
  · intro hgate a b hconf hsub
    rw [filterAndSortResults_pos cfg st recs hgate]
    dsimp only
    simp only [sortByConfidence]
    refine List.pair_sublist_mergeSort confLE_trans confLE_total ?_ hsub
    simp [confLE, hconf]

/-- C8 witness: a batch with the sentinel and two equal-confidence species
keeps the robin before the sparrow in the sorted output, as in the input. -/
theorem output_sorted_ascending_stable_witness :
    containsBirdSinging
      (filterByThreshold cfgB initEngineState.unlockedSpecies
        [sentinelRec, robinRec, sparrowRec]) = true ∧
    robinRec.confidence = sparrowRec.confidence ∧
    List.Sublist [robinRec, sparrowRec]
      (selectedResults cfgB initEngineState [sentinelRec, robinRec, sparrowRec]) ∧
    List.Sublist [robinRec, sparrowRec]
      ((filterAndSortResults cfgB initEngineState
        [sentinelRec, robinRec, sparrowRec]).1) := by
  have h1 : containsBirdSinging
      (filterByThreshold cfgB initEngineState.unlockedSpecies
        [sentinelRec, robinRec, sparrowRec]) = true := by decide
  have h2 : robinRec.confidence = sparrowRec.confidence := rfl
  have hsel : selectedResults cfgB initEngineState
      [sentinelRec, robinRec, sparrowRec] =
      [sentinelRec, robinRec, sparrowRec] := by decide
  have h3 : List.Sublist [robinRec, sparrowRec]
      (selectedResults cfgB initEngineState [sentinelRec, robinRec, sparrowRec]) := by
    rw [hsel]
    exact List.Sublist.cons sentinelRec (List.Sublist.refl [robinRec, sparrowRec])
  exact ⟨h1, h2, h3,
    (output_sorted_ascending_stable cfgB initEngineState
      [sentinelRec, robinRec, sparrowRec]).2.2 h1 robinRec sparrowRec h2 h3⟩

/-- C9 (confirmed): Stop on a running manager whose workers do not exit
within the timeout takes the timed-out arm of the select instead of
blocking, and afterwards IsRunning reports false; Stop on a manager that
is not running is a no-op. -/
theorem stop_bounded_and_idempotent (m : UiSpectrogramManager)
    (workerExitsWithinTimeout : Bool) :
    (m.isRunning = true →
      managerIsRunning (managerStop m workerExitsWithinTimeout).1 = false ∧
      (workerExitsWithinTimeout = false →
        (managerStop m workerExitsWithinTimeout).2 = StopOutcome.timedOut)) ∧
    (m.isRunning = false →
      managerStop m workerExitsWithinTimeout = (m, StopOutcome.notRunning)) := by
  constructor
  · intro h
    constructor
    · simp [managerStop, managerIsRunning, h]
    · intro hw
      simp [managerStop, h, hw]
  · intro h
    simp [managerStop, h]

/-- C9 witness: a running manager stopped while its worker never exits
ends not running with the timed-out outcome; a stopped manager is left
untouched. -/
theorem stop_bounded_and_idempotent_witness :
    ((⟨true, true⟩ : UiSpectrogramManager).isRunning = true) ∧
    (managerIsRunning (managerStop ⟨true, true⟩ false).1 = false ∧
      (managerStop ⟨true, true⟩ false).2 = StopOutcome.timedOut) ∧
    ((⟨false, false⟩ : UiSpectrogramManager).isRunning = false) ∧
    managerStop ⟨false, false⟩ false = (⟨false, false⟩, StopOutcome.notRunning) := by
  refine ⟨rfl, ⟨?_, ?_⟩, rfl, ?_⟩
  · exact ((stop_bounded_and_idempotent ⟨true, true⟩ false).1 rfl).1
  · exact ((stop_bounded_and_idempotent ⟨true, true⟩ false).1 rfl).2 rfl
  · exact (stop_bounded_and_idempotent ⟨false, false⟩ false).2 rfl

/-- C10 (confirmed): the summary layer folds handleNewDetection exactly
over the emitted recognitions that are not the sentinel, so the sentinel
never creates or increments a species-summary entry; a summary free of the
sentinel name stays free of it. -/
theorem summary_never_counts_sentinel (cfg : SoundIdConfig) (ui : UIState)
    (predictions : List SoundRecognition) :
    ((handleNewPrediction cfg ui predictions).speciesSummary =
      ((filterAndSortResults cfg ui.engine predictions).1.filter
        (fun r => !(r.commonName == SINGING_BIRD_NAME))).foldl
          handleNewDetection ui.speciesSummary) ∧
    ((∀ s ∈ ui.speciesSummary, s.common_name ≠ SINGING_BIRD_NAME) →
      ∀ s ∈ (handleNewPrediction cfg ui predictions).speciesSummary,
        s.common_name ≠ SINGING_BIRD_NAME) := by
  have hfst : (handleNewPrediction cfg ui predictions).speciesSummary =
      ((filterAndSortResults cfg ui.engine predictions).1.filter
        (fun r => !(r.commonName == SINGING_BIRD_NAME))).foldl
          handleNewDetection ui.speciesSummary := by
    unfold handleNewPrediction
    dsimp only
    exact foldl_predictionStep_fst _ _ _ _
  refine ⟨hfst, ?_⟩
  intro h s hs
  rw [hfst] at hs
  refine foldl_handleNewDetection_preserves_absence SINGING_BIRD_NAME _ _ ?_ h s hs
  intro r hr
  have hp := (List.mem_filter.mp hr).2
  simpa using hp

/-- C10 witness: starting from an empty summary, a sentinel-only batch
leaves the summary free of any sentinel entry. -/
theorem summary_never_counts_sentinel_witness :
    (∀ s ∈ uiInit.speciesSummary, s.common_name ≠ SINGING_BIRD_NAME) ∧
    (∀ s ∈ (handleNewPrediction cfgA uiInit [sentinelRec]).speciesSummary,
      s.common_name ≠ SINGING_BIRD_NAME) := by
  have h0 : ∀ s ∈ uiInit.speciesSummary, s.common_name ≠ SINGING_BIRD_NAME := by
    intro s hs
    simp [uiInit] at hs
  exact ⟨h0, (summary_never_counts_sentinel cfgA uiInit [sentinelRec]).2 h0⟩
